import Mathlib

/-!
# Verification of the CryptoPanic scraper

A shallow embedding of `cryptopanic_scraper.py` (class `CryptoPanicScraper`):
the pagination loop `fetch_news`, the timestamp parsing it performs with
`datetime.strptime(s, "%Y-%m-%dT%H:%M:%SZ")`, the record construction, and the
persistence step `save_to_files` (file naming, JSON serialization, S3 versus
local write).  HTTP traffic is abstracted as a function from request
parameters to responses; the `while True` loop is given explicit fuel, with
`none` meaning the loop has not returned after that many iterations.
-/

namespace Cryptopanic

/-- A timezone-aware UTC datetime, as produced by
`datetime.strptime(...).replace(tzinfo=timezone.utc)`.  Python datetimes
always carry calendar-valid fields; comparisons below mirror Python's
chronological comparison via a lexicographic key. -/
structure DateTime where
  year : Nat
  month : Nat
  day : Nat
  hour : Nat
  minute : Nat
  second : Nat
deriving Repr, DecidableEq

/-- Lexicographic key: strictly monotone in chronological order on
calendar-valid datetimes (month ≤ 12 < 13, day ≤ 31 < 32, hour < 24,
minute, second < 60). -/
def DateTime.key (d : DateTime) : Nat :=
  ((((d.year * 13 + d.month) * 32 + d.day) * 24 + d.hour) * 60 + d.minute) * 60 + d.second

/-- Python `a <= b` on datetimes. -/
def dtLe (a b : DateTime) : Bool := decide (a.key ≤ b.key)

/-- Python `a < b` on datetimes. -/
def dtLt (a b : DateTime) : Bool := decide (a.key < b.key)

/-- Gregorian leap year, as used by Python's `datetime` calendar. -/
def isLeapYear (y : Nat) : Bool :=
  y % 4 == 0 && (y % 100 != 0 || y % 400 == 0)

/-- Number of days in a month, as validated by the `datetime` constructor. -/
def daysInMonth (y m : Nat) : Nat :=
  if m == 2 then (if isLeapYear y then 29 else 28)
  else if m == 4 || m == 6 || m == 9 || m == 11 then 30
  else 31

/-- Value of a decimal digit character, `none` on non-digits. -/
def digitVal (c : Char) : Option Nat :=
  if 48 ≤ c.toNat && c.toNat ≤ 57 then some (c.toNat - 48) else none

/-- `%Y` of `strptime`: exactly four decimal digits. -/
def read4 : List Char → Option (Nat × List Char)
  | c1 :: c2 :: c3 :: c4 :: rest =>
    match digitVal c1, digitVal c2, digitVal c3, digitVal c4 with
    | some d1, some d2, some d3, some d4 =>
      some (((d1 * 10 + d2) * 10 + d3) * 10 + d4, rest)
    | _, _, _, _ => none
  | _ => none

/-- A one-or-two digit `strptime` field (`%m`, `%d`, `%H`, `%M`, `%S`):
two digits are taken when they form a value in `[lo, hi]`, otherwise a
single digit in `[lo, hi]` is taken.  This matches the regex alternations
CPython's `_strptime` uses (two-digit alternatives first, single digit as
fallback; a successful overall parse always has a non-digit right after the
field, so no further backtracking is observable). -/
def readField (lo hi : Nat) : List Char → Option (Nat × List Char)
  | c1 :: rest =>
    match digitVal c1 with
    | none => none
    | some d1 =>
      match rest with
      | c2 :: rest2 =>
        match digitVal c2 with
        | some d2 =>
          if lo ≤ d1 * 10 + d2 && d1 * 10 + d2 ≤ hi then some (d1 * 10 + d2, rest2)
          else if lo ≤ d1 && d1 ≤ hi then some (d1, rest)
          else none
        | none => if lo ≤ d1 && d1 ≤ hi then some (d1, rest) else none
      | [] => if lo ≤ d1 && d1 ≤ hi then some (d1, rest) else none
  | [] => none

/-- Consume one expected literal character. -/
def expectChar (c : Char) : List Char → Option (List Char)
  | c1 :: rest => if c1 = c then some rest else none
  | [] => none

/-- `datetime.strptime(s, "%Y-%m-%dT%H:%M:%SZ")` on the characters of `s`,
followed by the `datetime` constructor's validation (year ≥ 1, calendar-valid
day, second ≤ 59 — the `%S` regex admits 60 and 61 but the constructor
rejects them).  The whole string must be consumed. -/
def parseTsChars (cs : List Char) : Option DateTime := do
  let (y, r1) ← read4 cs
  let r2 ← expectChar '-' r1
  let (m, r3) ← readField 1 12 r2
  let r4 ← expectChar '-' r3
  let (d, r5) ← readField 1 31 r4
  let r6 ← expectChar 'T' r5
  let (hh, r7) ← readField 0 23 r6
  let r8 ← expectChar ':' r7
  let (mi, r9) ← readField 0 59 r8
  let r10 ← expectChar ':' r9
  let (s, r11) ← readField 0 61 r10
  let r12 ← expectChar 'Z' r11
  match r12 with
  | [] =>
    if 1 ≤ y && d ≤ daysInMonth y m && s ≤ 59 then
      some ⟨y, m, d, hh, mi, s⟩
    else none
  | _ => none

/-- The `try: datetime.strptime(published_at, ...)` block: `published_at` may
be absent/`None` (then `strptime` raises `TypeError`, likewise caught). -/
def parseTimestamp : Option String → Option DateTime
  | none => none
  | some s => parseTsChars s.data

/-- Two-digit zero-padded decimal. -/
def pad2 (n : Nat) : String :=
  if n < 10 then "0" ++ toString n else toString n

/-- Four-digit zero-padded decimal. -/
def pad4 (n : Nat) : String :=
  if n < 10 then "000" ++ toString n
  else if n < 100 then "00" ++ toString n
  else if n < 1000 then "0" ++ toString n
  else toString n

/-- `published_at.isoformat()` for a UTC-aware datetime with zero
microseconds: `YYYY-MM-DDTHH:MM:SS+00:00`. -/
def isoformat (d : DateTime) : String :=
  pad4 d.year ++ "-" ++ pad2 d.month ++ "-" ++ pad2 d.day ++ "T" ++
    pad2 d.hour ++ ":" ++ pad2 d.minute ++ ":" ++ pad2 d.second ++ "+00:00"

/-- One raw item of a page's `results` array: `post.get("published_at")` and
`post.get("title")` may each be absent (`None`). -/
structure Item where
  published_at : Option String
  title : Option String
deriving Repr, DecidableEq

/-- An HTTP response: `response.status_code` and `response.json()`'s
`data.get("results", [])` (an absent key is the empty list). -/
structure Response where
  status_code : Nat
  results : List Item
deriving Repr

/-- One output record: `{'date': published_at.isoformat(), 'text': f"..."}`. -/
structure NewsRecord where
  date : String
  text : String
deriving Repr, DecidableEq

/-- The scraper's configuration, as stored by `CryptoPanicScraper.__init__`
(fields actually read by the code modelled here; `delta` is stored and, as
the proofs show, never read). -/
structure Config where
  currencies : List String
  api_key : String
  start_date : DateTime
  end_date : DateTime
  delta : Int
  bucket_name : Option String
  lambda_name : String

/-- The query parameters of one `requests.get` call in the loop. -/
structure ReqParams where
  auth_token : String
  currencies : String
  page : Nat
deriving Repr, DecidableEq

/-- The `params` dict built for a given page. -/
def reqParams (cfg : Config) (page : Nat) : ReqParams :=
  ⟨cfg.api_key, String.intercalate "," cfg.currencies, page⟩

/-- The record appended for an in-window item:
`{'date': published_at.isoformat(), 'text': f"{post.get('title')}\n"}`
(`str(None)` is the literal string `None`). -/
def mkRecord (dt : DateTime) (title : Option String) : NewsRecord :=
  ⟨isoformat dt, (match title with | some t => t | none => "None") ++ "\n"⟩

/-- The body of `for post in data.get("results", [])` acting on the state
(accumulated `posts`, `finished` flag). -/
def stepItem (cfg : Config) (page : Nat) (acc : List NewsRecord × Bool)
    (post : Item) : List NewsRecord × Bool :=
  match parseTimestamp post.published_at with
  | none => acc
  | some dt =>
    let posts :=
      if dtLe cfg.start_date dt && dtLe dt cfg.end_date then
        acc.1 ++ [mkRecord dt post.title]
      else acc.1
    let fin :=
      if dtLt dt cfg.start_date || decide (page > 11) then true else acc.2
    (posts, fin)

/-- The `while True` loop of `fetch_news`, with explicit fuel.  `none` means
the loop has not returned within `fuel` iterations; `some (posts, p)` means
it returned `posts` after requesting pages `1..p` (so `p` HTTP requests). -/
def fetchLoop (cfg : Config) (responses : ReqParams → Response) :
    Nat → Nat → List NewsRecord → Option (List NewsRecord × Nat)
  | 0, _, _ => none
  | fuel + 1, page, posts =>
    let r := responses (reqParams cfg page)
    if r.status_code ≠ 200 then some ([], page)
    else
      let res := r.results.foldl (stepItem cfg page) (posts, false)
      if res.2 then some (res.1, page)
      else fetchLoop cfg responses fuel (page + 1) res.1

/-- `CryptoPanicScraper.fetch_news`, starting at page 1 with empty `posts`. -/
def fetch_news (cfg : Config) (responses : ReqParams → Response) (fuel : Nat) :
    Option (List NewsRecord × Nat) :=
  fetchLoop cfg responses fuel 1 []

/-! ## JSON serialization, as performed by
`json.dumps(news_list, indent=4, ensure_ascii=False)` -/

/-- Lowercase hexadecimal digit, as in Python's `'\\u%04x'`. -/
def hexDigitChar (n : Nat) : Char :=
  if n < 10 then Char.ofNat (48 + n) else Char.ofNat (87 + n)

/-- Python `json`'s string escaping with `ensure_ascii=False`: only `\\`, `"`
and control characters below U+0020 are escaped (the latter via short
escapes or `\\u00XX`); everything else, non-ASCII included, is emitted
literally. -/
def escChar (c : Char) : List Char :=
  if c = '"' then ['\\', '"']
  else if c = '\\' then ['\\', '\\']
  else if c = '\n' then ['\\', 'n']
  else if c = '\r' then ['\\', 'r']
  else if c = '\t' then ['\\', 't']
  else if c = Char.ofNat 8 then ['\\', 'b']
  else if c = Char.ofNat 12 then ['\\', 'f']
  else if c.toNat < 32 then
    '\\' :: 'u' :: '0' :: '0' :: hexDigitChar (c.toNat / 16) ::
      hexDigitChar (c.toNat % 16) :: []
  else [c]

/-- A JSON string token: the escaped characters between double quotes. -/
def encStrChars (s : String) : List Char :=
  '"' :: (s.data.flatMap escChar ++ ['"'])

/-- One record dict as `json.dumps` renders it at nesting depth 1 with
`indent=4`: keys in insertion order `date`, `text`, key separator `": "`. -/
def objChars (r : NewsRecord) : List Char :=
  '{' :: '\n' :: ' ' :: ' ' :: ' ' :: ' ' :: ' ' :: ' ' :: ' ' :: ' ' ::
    (encStrChars "date" ++ ':' :: ' ' ::
      (encStrChars r.date ++ ',' :: '\n' :: ' ' :: ' ' :: ' ' :: ' ' :: ' ' :: ' ' :: ' ' :: ' ' ::
        (encStrChars "text" ++ ':' :: ' ' ::
          (encStrChars r.text ++ '\n' :: ' ' :: ' ' :: ' ' :: ' ' :: ['}']))))

/-- Array elements joined by the `indent=4` item separator `",\n    "`. -/
def sepObjsChars : NewsRecord → List NewsRecord → List Char
  | r, [] => objChars r
  | r, r2 :: rs => objChars r ++ ',' :: '\n' :: ' ' :: ' ' :: ' ' :: ' ' :: sepObjsChars r2 rs

/-- The whole document: `[]` for an empty list, otherwise the bracketed,
newline-and-indent separated element list. -/
def pyJsonDumpsChars : List NewsRecord → List Char
  | [] => ['[', ']']
  | r :: rs => '[' :: '\n' :: ' ' :: ' ' :: ' ' :: ' ' :: (sepObjsChars r rs ++ ['\n', ']'])

/-- `json.dumps(news_list, indent=4, ensure_ascii=False)`. -/
def pyJsonDumps (rs : List NewsRecord) : String :=
  String.mk (pyJsonDumpsChars rs)

/-! ## `save_to_files` -/

/-- `(self.end_date - timedelta(days=1))`: calendar-correct previous day,
time of day unchanged. -/
def subOneDay (d : DateTime) : DateTime :=
  if d.day > 1 then { d with day := d.day - 1 }
  else if d.month > 1 then
    { d with month := d.month - 1, day := daysInMonth d.year (d.month - 1) }
  else { d with year := d.year - 1, month := 12, day := 31 }

/-- `strftime('%Y-%m-%d')`. -/
def strftimeDate (d : DateTime) : String :=
  pad4 d.year ++ "-" ++ pad2 d.month ++ "-" ++ pad2 d.day

/-- `strftime('%Y/%m/%d')`. -/
def strftimeDateSlash (d : DateTime) : String :=
  pad4 d.year ++ "/" ++ pad2 d.month ++ "/" ++ pad2 d.day

/-- The `file_name` computed by `save_to_files`. -/
def file_name (cfg : Config) : String :=
  "cryptopanic_" ++ strftimeDate cfg.start_date ++ "_" ++
    strftimeDate (subOneDay cfg.end_date) ++ ".json"

/-- The `s3_key` computed in the bucket branch of `save_to_files`. -/
def s3_key (cfg : Config) : String :=
  strftimeDateSlash cfg.start_date ++ "/" ++ file_name cfg

/-- Outcome of the single `put_object` call, decided by the environment. -/
inductive UploadOutcome where
  | success
  | clientError
deriving Repr, DecidableEq

/-- Observable effects of one `save_to_files` call.  `returned` is the
value the Python function returns (it has no `return` statement, so always
`None`, modelled as `none`); `uploads_attempted` counts `put_object` calls;
`local_write` is `(file name, open mode, content)` when `open(...)` is
reached. -/
structure SaveEffects where
  returned : Option Bool
  uploads_attempted : Nat
  uploaded : Option (String × String × String)
  local_write : Option (String × String × String)
  error_logged : Bool
  info_logged : Bool
deriving Repr, DecidableEq

/-- `CryptoPanicScraper.save_to_files(news_list)`.  `if self.bucket_name:`
is Python truthiness: `None` and the empty string both take the local
branch.  In the bucket branch a `ClientError` from `put_object` is caught
and logged, with no retry, no cleanup and no local fallback; either branch
falls off the end of the function, returning `None`. -/
def save_to_files (cfg : Config) (news_list : List NewsRecord)
    (s3 : UploadOutcome) : SaveEffects :=
  let fn := file_name cfg
  let content := pyJsonDumps news_list
  match cfg.bucket_name with
  | some bucket =>
    if bucket = "" then
      ⟨none, 0, none, some (fn, "w", content), false, true⟩
    else
      match s3 with
      | .success => ⟨none, 1, some (bucket, s3_key cfg, content), none, false, true⟩
      | .clientError => ⟨none, 1, none, none, true, false⟩
  | none => ⟨none, 0, none, some (fn, "w", content), false, true⟩

/-! ## A JSON parser

Modelled from the spec: the spec's round-trip property re-parses the
produced document, but the repository contains no JSON reader (only
`json.dumps`), so the reader is modelled here — a recursive-descent parser
for documents of the produced shape, an array of flat objects with string
keys and string values, with arbitrary interleaving whitespace and full
JSON string-escape handling. -/

/-- JSON insignificant whitespace. -/
def isWs (c : Char) : Bool :=
  c = ' ' || c = '\n' || c = '\t' || c = '\r'

/-- Drop leading whitespace. -/
def skipWs : List Char → List Char
  | [] => []
  | c :: cs => if isWs c then skipWs cs else c :: cs

/-- Value of a hexadecimal digit character. -/
def hexVal (c : Char) : Option Nat :=
  if 48 ≤ c.toNat && c.toNat ≤ 57 then some (c.toNat - 48)
  else if 97 ≤ c.toNat && c.toNat ≤ 102 then some (c.toNat - 87)
  else if 65 ≤ c.toNat && c.toNat ≤ 70 then some (c.toNat - 55)
  else none

/-- The character denoted by a single-character JSON escape. -/
def unescapeChar (e : Char) : Option Char :=
  if e = 'n' then some (Char.ofNat 10)
  else if e = 't' then some (Char.ofNat 9)
  else if e = 'r' then some (Char.ofNat 13)
  else if e = 'b' then some (Char.ofNat 8)
  else if e = 'f' then some (Char.ofNat 12)
  else if e = '"' || e = '\\' || e = '/' then some e
  else none

/-- Characters of a JSON string, from just after the opening quote to the
closing quote; raw control characters are rejected (strict mode). -/
def parseStringBody : List Char → Option (List Char × List Char)
  | [] => none
  | c :: rest =>
    if c = '"' then some ([], rest)
    else if c = '\\' then
      match rest with
      | 'u' :: h1 :: h2 :: h3 :: h4 :: rest2 =>
        (match hexVal h1, hexVal h2, hexVal h3, hexVal h4 with
         | some a, some b, some c3, some d =>
           (match parseStringBody rest2 with
            | none => none
            | some (cs, r) => some (Char.ofNat (((a * 16 + b) * 16 + c3) * 16 + d) :: cs, r))
         | _, _, _, _ => none)
      | e :: rest2 =>
        (match unescapeChar e with
         | none => none
         | some ec =>
           (match parseStringBody rest2 with
            | none => none
            | some (cs, r) => some (ec :: cs, r)))
      | [] => none
    else if c.toNat < 32 then none
    else
      match parseStringBody rest with
      | none => none
      | some (cs, r) => some (c :: cs, r)

/-- A quoted JSON string token. -/
def parseJsonString : List Char → Option (String × List Char)
  | '"' :: rest =>
    (match parseStringBody rest with
     | none => none
     | some (body, r) => some (String.mk body, r))
  | _ => none

/-- The members of an object, from the first key to just past the closing
brace; `fuel` bounds the number of members. -/
def parseMembers : Nat → List Char → Option (List (String × String) × List Char)
  | 0, _ => none
  | fm + 1, cs =>
    match parseJsonString (skipWs cs) with
    | none => none
    | some (k, r1) =>
      match skipWs r1 with
      | ':' :: r2 =>
        (match parseJsonString (skipWs r2) with
         | none => none
         | some (v, r3) =>
           match skipWs r3 with
           | ',' :: r4 =>
             (match parseMembers fm r4 with
              | none => none
              | some (ms, r5) => some ((k, v) :: ms, r5))
           | '}' :: r4 => some ([(k, v)], r4)
           | _ => none)
      | _ => none

/-- One object. -/
def parseObject (fm : Nat) (cs : List Char) :
    Option (List (String × String) × List Char) :=
  match skipWs cs with
  | '{' :: r1 =>
    (match skipWs r1 with
     | '}' :: r2 => some ([], r2)
     | r2 => parseMembers fm r2)
  | _ => none

/-- The elements of a non-empty array, up to just past the closing bracket;
`fuel` bounds both the element count and each object's member count. -/
def parseElems : Nat → List Char → Option (List (List (String × String)) × List Char)
  | 0, _ => none
  | fe + 1, cs =>
    match parseObject (fe + 1) cs with
    | none => none
    | some (obj, r1) =>
      match skipWs r1 with
      | ',' :: r2 =>
        (match parseElems fe r2 with
         | none => none
         | some (objs, r3) => some (obj :: objs, r3))
      | ']' :: r2 => some ([obj], r2)
      | _ => none

/-- Modelled from the spec: the round-trip property's re-parsing step, which
the repository does not implement (it only serializes).  Parses a whole
document — an array of flat string-valued objects followed by nothing but
whitespace — using the readers above. -/
def parseDoc (s : String) : Option (List (List (String × String))) :=
  match skipWs s.data with
  | '[' :: r1 =>
    (match skipWs r1 with
     | ']' :: r2 => (match skipWs r2 with | [] => some [] | _ => none)
     | r2 =>
       match parseElems (s.data.length + 1) r2 with
       | none => none
       | some (objs, r3) => (match skipWs r3 with | [] => some objs | _ => none))
  | _ => none

/-! ## Derived views of the loop body, used to state the invariants -/

/-- The record (if any) one item contributes: parse, then the inclusive
window test `start_date <= published_at <= end_date`. -/
def recordOfItem (cfg : Config) (post : Item) : Option NewsRecord :=
  match parseTimestamp post.published_at with
  | none => none
  | some dt =>
    if dtLe cfg.start_date dt && dtLe dt cfg.end_date then some (mkRecord dt post.title)
    else none

/-- Whether one item sets the `finished` flag:
`published_at < self.start_date or page > 11`, reached only when the
timestamp parsed. -/
def itemFlag (cfg : Config) (page : Nat) (post : Item) : Bool :=
  match parseTimestamp post.published_at with
  | none => false
  | some dt => dtLt dt cfg.start_date || decide (page > 11)

/-- Whether processing a whole page sets the `finished` flag. -/
def pageFlag (cfg : Config) (page : Nat) (items : List Item) : Bool :=
  items.any (itemFlag cfg page)

/-- All items encountered on pages `1..n`, in native page order. -/
def itemsUpTo (cfg : Config) (responses : ReqParams → Response) (n : Nat) : List Item :=
  (List.range' 1 n).flatMap (fun i => (responses (reqParams cfg i)).results)

/-- The key/value pairs of one serialized record, in emission order. -/
def objPairs (r : NewsRecord) : List (String × String) :=
  [("date", r.date), ("text", r.text)]

/-! ## Concrete fixtures used by scenario claims and witnesses -/

/-- Window 2024-01-01T00:00:00Z to 2024-01-02T00:00:00Z, currencies
`["BTC"]`, no bucket. -/
def cfgDemo : Config :=
  ⟨["BTC"], "KEY", ⟨2024, 1, 1, 0, 0, 0⟩, ⟨2024, 1, 2, 0, 0, 0⟩, 1, none,
    "cryptopanic_scraper_lambda"⟩

/-- The same run configured with an S3 bucket. -/
def cfgDemoBucket : Config :=
  { cfgDemo with bucket_name := some "cryptopanic-scraper" }

/-- An API that always answers 200 with an empty result list. -/
def respAllEmpty : ReqParams → Response := fun _ => ⟨200, []⟩

/-- An API whose page 1 has three items dated inside, inside, and before the
demo window; any further request would fail with a 500, so a successful
result proves no further page was requested. -/
def respC5 : ReqParams → Response := fun q =>
  if q.page = 1 then
    ⟨200, [⟨some "2024-01-01T05:00:00Z", some "a"⟩,
           ⟨some "2024-01-01T23:00:00Z", some "b"⟩,
           ⟨some "2023-12-31T23:00:00Z", some "c"⟩]⟩
  else ⟨500, []⟩

/-- An API that always answers 503. -/
def respFail : ReqParams → Response := fun _ => ⟨503, []⟩

/-! ## The loop body, itemwise -/

theorem stepItem_eq (cfg : Config) (page : Nat) (acc : List NewsRecord × Bool) (post : Item) :
    stepItem cfg page acc post =
      (acc.1 ++ (recordOfItem cfg post).toList, acc.2 || itemFlag cfg page post) := by
  unfold stepItem recordOfItem itemFlag
  cases hp : parseTimestamp post.published_at with
  | none => simp
  | some dt =>
    by_cases hw : (dtLe cfg.start_date dt && dtLe dt cfg.end_date) = true <;>
      by_cases hf : (dtLt dt cfg.start_date || decide (page > 11)) = true <;>
        simp [hw, hf]

theorem foldl_stepItem (cfg : Config) (page : Nat) :
    ∀ (items : List Item) (acc : List NewsRecord × Bool),
      items.foldl (stepItem cfg page) acc =
        (acc.1 ++ items.filterMap (recordOfItem cfg), acc.2 || pageFlag cfg page items) := by
  intro items
  induction items with
  | nil => intro acc; simp [pageFlag]
  | cons i is ih =>
    intro acc
    rw [List.foldl_cons, ih, stepItem_eq]
    cases hro : recordOfItem cfg i <;>
      simp [pageFlag, List.any_cons, List.filterMap_cons, hro, List.append_assoc,
        Bool.or_assoc]

/-! ## Pages that process no item never set the flag (claim C1) -/

theorem fetchLoop_allEmpty (cfg : Config) :
    ∀ (fuel page : Nat) (posts : List NewsRecord),
      fetchLoop cfg respAllEmpty fuel page posts = none := by
  intro fuel
  induction fuel with
  | zero => intro page posts; rfl
  | succ fuel ih =>
    intro page posts
    unfold fetchLoop
    simpa [respAllEmpty] using ih (page + 1) posts

/-- Claim C1: the claim asserts that the pagination loop always terminates
within 12 HTTP requests, even on pages with an empty result list.  The code
violates this: the `finished` flag is only ever set inside the per-item
`for` loop, so when every page answers 200 with an empty `results` list the
flag is never set and the loop keeps requesting pages forever — for every
fuel bound, `fetch_news` has still not returned (`none`), i.e. the number of
requests issued is unbounded. -/
theorem fetch_news_unbounded_on_empty_pages (cfg : Config) (fuel : Nat) :
    fetch_news cfg respAllEmpty fuel = none :=
  fetchLoop_allEmpty cfg fuel 1 []

/-! ## Unparseable items are skipped without any effect (claim C4) -/

/-- Claim C4: an item whose `published_at` does not parse is skipped: the
page's fold over the remaining items proceeds exactly as if the item were
absent, so it contributes no record and never touches the termination
flag. -/
theorem unparseable_item_is_skipped (cfg : Config) (page : Nat) (bad : Item)
    (hbad : parseTimestamp bad.published_at = none) (xs ys : List Item)
    (acc : List NewsRecord × Bool) :
    (xs ++ bad :: ys).foldl (stepItem cfg page) acc =
      (xs ++ ys).foldl (stepItem cfg page) acc := by
  rw [List.foldl_append, List.foldl_append, List.foldl_cons]
  have hstep : stepItem cfg page (xs.foldl (stepItem cfg page) acc) bad =
      xs.foldl (stepItem cfg page) acc := by
    unfold stepItem
    rw [hbad]
  rw [hstep]

theorem unparseable_item_is_skipped_witness :
    parseTimestamp (some "not a date") = none ∧
      ([⟨some "2024-01-01T05:00:00Z", some "a"⟩, (⟨some "not a date", some "x"⟩ : Item),
          ⟨some "2023-12-31T23:00:00Z", some "c"⟩].foldl (stepItem cfgDemo 1) ([], false) =
        [(⟨some "2024-01-01T05:00:00Z", some "a"⟩ : Item),
          ⟨some "2023-12-31T23:00:00Z", some "c"⟩].foldl (stepItem cfgDemo 1) ([], false)) :=
  ⟨by decide,
    unparseable_item_is_skipped cfgDemo 1 ⟨some "not a date", some "x"⟩ (by decide)
      [⟨some "2024-01-01T05:00:00Z", some "a"⟩] [⟨some "2023-12-31T23:00:00Z", some "c"⟩]
      ([], false)⟩

/-! ## The single-page scenario (claim C5) -/

/-- Claim C5: for the window 2024-01-01..2024-01-02 and a single page with
items dated 05:00 and 23:00 on Jan 1 and 23:00 on Dec 31, `fetch_news`
returns exactly the two in-window records after exactly one request (any
second request would hit a 500 and discard everything), the flag is still
unset after the first two items, and set after the third. -/
theorem fetch_news_single_page_scenario :
    fetch_news cfgDemo respC5 2 =
      some ([⟨"2024-01-01T05:00:00+00:00", "a\n"⟩, ⟨"2024-01-01T23:00:00+00:00", "b\n"⟩], 1) ∧
    (((respC5 (reqParams cfgDemo 1)).results.take 2).foldl (stepItem cfgDemo 1) ([], false)).2
        = false ∧
    ((respC5 (reqParams cfgDemo 1)).results.foldl (stepItem cfgDemo 1) ([], false)).2 = true := by
  decide

/-! ## Output naming (claim C6) -/

/-- Claim C6: the output file name is
`cryptopanic_<start:%Y-%m-%d>_<end minus one day:%Y-%m-%d>.json`, the object
key prefixes it with `<start:%Y/%m/%d>/`, and for the one-day window
starting 2024-01-01 the name is `cryptopanic_2024-01-01_2024-01-01.json`. -/
theorem file_name_and_key_format :
    (∀ cfg : Config,
      file_name cfg =
        "cryptopanic_" ++ strftimeDate cfg.start_date ++ "_" ++
          strftimeDate (subOneDay cfg.end_date) ++ ".json" ∧
      s3_key cfg = strftimeDateSlash cfg.start_date ++ "/" ++ file_name cfg) ∧
    file_name cfgDemo = "cryptopanic_2024-01-01_2024-01-01.json" ∧
    s3_key cfgDemoBucket = "2024/01/01/cryptopanic_2024-01-01_2024-01-01.json" :=
  ⟨fun _ => ⟨rfl, rfl⟩, by decide, by decide⟩

/-! ## The grouping interval is never read (claim C9) -/

theorem fetchLoop_ignores_delta (cfg : Config) (d : Int)
    (responses : ReqParams → Response) :
    ∀ (fuel page : Nat) (posts : List NewsRecord),
      fetchLoop { cfg with delta := d } responses fuel page posts =
        fetchLoop cfg responses fuel page posts := by
  intro fuel
  induction fuel with
  | zero => intro page posts; rfl
  | succ fuel ih =>
    intro page posts
    unfold fetchLoop
    have h1 : reqParams { cfg with delta := d } page = reqParams cfg page := rfl
    have h2 : stepItem { cfg with delta := d } page = stepItem cfg page := rfl
    simp only [h1, h2, ih]

/-- Claim C9: two runs identical but for the grouping interval `delta` that
observe the same API responses produce identical `fetch_news` results: the
filtering logic never reads `delta`. -/
theorem fetch_news_ignores_delta (cfg : Config) (d : Int)
    (responses : ReqParams → Response) (fuel : Nat) :
    fetch_news { cfg with delta := d } responses fuel = fetch_news cfg responses fuel :=
  fetchLoop_ignores_delta cfg d responses fuel 1 []

/-! ## Abort on a non-success HTTP status (claim C3) -/

theorem fetchLoop_abort (cfg : Config) (responses : ReqParams → Response) (p : Nat)
    (hbad : (responses (reqParams cfg p)).status_code ≠ 200)
    (hok : ∀ i, 1 ≤ i → i < p →
      (responses (reqParams cfg i)).status_code = 200 ∧
        pageFlag cfg i (responses (reqParams cfg i)).results = false) :
    ∀ (fuel page : Nat) (posts : List NewsRecord), 1 ≤ page → page ≤ p →
      p + 1 - page ≤ fuel → fetchLoop cfg responses fuel page posts = some ([], p) := by
  intro fuel
  induction fuel with
  | zero => intro page posts h1p hpp hfuel; omega
  | succ fuel ih =>
    intro page posts h1p hpp hfuel
    by_cases hpage : page = p
    · subst hpage
      unfold fetchLoop
      simp [hbad]
    · have hlt : page < p := by omega
      obtain ⟨hs, hfl⟩ := hok page h1p hlt
      unfold fetchLoop
      simp only [hs, foldl_stepItem, hfl, Bool.false_or, ne_eq, not_true_eq_false,
        if_false, Bool.false_eq_true, if_neg]
      exact ih (page + 1) _ (by omega) (by omega) (by omega)

/-- Claim C3: if the loop reaches a page whose HTTP status is not 200 (the
earlier pages all succeeded without setting the termination flag),
`fetch_news` returns the empty sequence at once — the records accumulated so
far are discarded and no further request is issued (`p` requests in total) —
so the only possible file content for the run is the empty JSON array. -/
theorem fetch_news_aborts_on_http_error (cfg : Config) (responses : ReqParams → Response)
    (p fuel : Nat) (hp : 1 ≤ p) (hfuel : p ≤ fuel)
    (hbad : (responses (reqParams cfg p)).status_code ≠ 200)
    (hok : ∀ i, 1 ≤ i → i < p →
      (responses (reqParams cfg i)).status_code = 200 ∧
        pageFlag cfg i (responses (reqParams cfg i)).results = false) :
    fetch_news cfg responses fuel = some ([], p) ∧ pyJsonDumps [] = "[]" :=
  ⟨fetchLoop_abort cfg responses p hbad hok fuel 1 [] (by omega) hp (by omega), rfl⟩

theorem fetch_news_aborts_on_http_error_witness :
    fetch_news cfgDemo respFail 1 = some ([], 1) ∧ pyJsonDumps [] = "[]" :=
  fetch_news_aborts_on_http_error cfgDemo respFail 1 1 (by omega) (by omega) (by decide)
    (fun _ h1 h2 => absurd h2 (by omega))

/-! ## Window invariant and encounter order (claim C2) -/

theorem fetchLoop_sound (cfg : Config) (responses : ReqParams → Response) :
    ∀ (fuel page : Nat) (acc out : List NewsRecord) (p : Nat),
      fetchLoop cfg responses fuel page acc = some (out, p) →
      page ≤ p ∧ (out = [] ∨
        out = acc ++ ((List.range' page (p + 1 - page)).flatMap
          (fun i => (responses (reqParams cfg i)).results)).filterMap (recordOfItem cfg)) := by
  intro fuel
  induction fuel with
  | zero => intro page acc out p h; exact Option.noConfusion h
  | succ fuel ih =>
    intro page acc out p h
    unfold fetchLoop at h
    by_cases hs : (responses (reqParams cfg page)).status_code = 200
    · simp only [hs, ne_eq, not_true_eq_false, if_false, foldl_stepItem, Bool.false_or] at h
      by_cases hfl : pageFlag cfg page ((responses (reqParams cfg page)).results) = true
      · rw [if_pos hfl] at h
        simp only [Option.some.injEq, Prod.mk.injEq] at h
        obtain ⟨hout, hp⟩ := h
        subst hp
        refine ⟨le_refl page, Or.inr ?_⟩
        rw [← hout]
        have : page + 1 - page = 1 := by omega
        rw [this]
        simp [List.range'_succ]
      · rw [if_neg hfl] at h
        obtain ⟨hpp, hcase⟩ := ih (page + 1) _ out p h
        refine ⟨by omega, ?_⟩
        cases hcase with
        | inl h0 => exact Or.inl h0
        | inr h1 =>
          refine Or.inr ?_
          rw [h1, List.append_assoc]
          have harith : p + 1 - page = (p - page) + 1 := by omega
          rw [harith, List.range'_succ]
          have harith2 : p + 1 - (page + 1) = p - page := by omega
          rw [harith2] at *
          simp [List.filterMap_append]
    · rw [if_pos hs] at h
      simp only [Option.some.injEq, Prod.mk.injEq] at h
      obtain ⟨hout, hp⟩ := h
      subst hp
      exact ⟨le_refl page, Or.inl hout.symm⟩

/-- Claim C2: whenever `fetch_news` returns, every returned record carries
an `isoformat` date of a timestamp inside the inclusive window
`[start_date, end_date]`, and the record sequence is exactly the in-order
`filterMap` of the items encountered across the first `n` pages in native
page order — items outside the window or unparseable contribute nothing,
and no re-sorting happens. -/
theorem fetch_news_window_and_order (cfg : Config) (responses : ReqParams → Response)
    (fuel : Nat) (posts : List NewsRecord) (p : Nat)
    (h : fetch_news cfg responses fuel = some (posts, p)) :
    (∀ r ∈ posts, ∃ dt, r.date = isoformat dt ∧
      dtLe cfg.start_date dt = true ∧ dtLe dt cfg.end_date = true) ∧
    ∃ n, n ≤ p ∧ posts = (itemsUpTo cfg responses n).filterMap (recordOfItem cfg) := by
  obtain ⟨hpp, hcase⟩ := fetchLoop_sound cfg responses fuel 1 [] posts p h
  have horder : ∃ n, n ≤ p ∧
      posts = (itemsUpTo cfg responses n).filterMap (recordOfItem cfg) := by
    cases hcase with
    | inl h0 => exact ⟨0, Nat.zero_le p, by simp [h0, itemsUpTo]⟩
    | inr h1 =>
      refine ⟨p, le_refl p, ?_⟩
      have : p + 1 - 1 = p := by omega
      rw [this] at h1
      simpa [itemsUpTo] using h1
  refine ⟨?_, horder⟩
  obtain ⟨n, hn, hposts⟩ := horder
  intro r hr
  rw [hposts] at hr
  obtain ⟨item, hitem, hro⟩ := List.mem_filterMap.mp hr
  unfold recordOfItem at hro
  split at hro
  · exact Option.noConfusion hro
  · rename_i dt hp2
    split at hro
    · rename_i hw
      injection hro with hro'
      rw [Bool.and_eq_true] at hw
      exact ⟨dt, by rw [← hro']; rfl, hw.1, hw.2⟩
    · exact Option.noConfusion hro

theorem fetch_news_window_and_order_witness :
    (∀ r ∈ ([⟨"2024-01-01T05:00:00+00:00", "a\n"⟩,
        ⟨"2024-01-01T23:00:00+00:00", "b\n"⟩] : List NewsRecord),
      ∃ dt, r.date = isoformat dt ∧
        dtLe cfgDemo.start_date dt = true ∧ dtLe dt cfgDemo.end_date = true) ∧
    ∃ n, n ≤ 1 ∧
      ([⟨"2024-01-01T05:00:00+00:00", "a\n"⟩,
        ⟨"2024-01-01T23:00:00+00:00", "b\n"⟩] : List NewsRecord) =
        (itemsUpTo cfgDemo respC5 n).filterMap (recordOfItem cfgDemo) :=
  fetch_news_window_and_order cfgDemo respC5 2
    [⟨"2024-01-01T05:00:00+00:00", "a\n"⟩, ⟨"2024-01-01T23:00:00+00:00", "b\n"⟩] 1
    (by decide)

/-! ## Items without a title (claim C10) -/

/-- Claim C10: an item with a parseable in-window timestamp but no `title`
key still produces a record, whose text is the literal five-character string
`None` followed by a newline — Python renders `f"{post.get('title')}\n"`
with `str(None) = "None"`. -/
theorem missing_title_becomes_None_text (cfg : Config) (page : Nat)
    (acc : List NewsRecord × Bool) (post : Item) (dt : DateTime)
    (htitle : post.title = none)
    (hparse : parseTimestamp post.published_at = some dt)
    (hwin : (dtLe cfg.start_date dt && dtLe dt cfg.end_date) = true) :
    (stepItem cfg page acc post).1 = acc.1 ++ [⟨isoformat dt, "None\n"⟩] ∧
      ("None\n").length = 5 := by
  constructor
  · unfold stepItem
    rw [hparse]
    simp [hwin, mkRecord, htitle]
  · rfl

theorem missing_title_becomes_None_text_witness :
    (stepItem cfgDemo 1 ([], false) ⟨some "2024-01-01T05:00:00Z", none⟩).1 =
      [] ++ [⟨isoformat ⟨2024, 1, 1, 5, 0, 0⟩, "None\n"⟩] ∧ ("None\n").length = 5 :=
  missing_title_becomes_None_text cfgDemo 1 ([], false) ⟨some "2024-01-01T05:00:00Z", none⟩
    ⟨2024, 1, 1, 5, 0, 0⟩ rfl (by decide) (by decide)

/-! ## Persistence behavior (claim C7) -/

/-- Claim C7 counterexample: the claim says the persist operation returns a
success/failure signal and "returns failure" when the upload fails.  The
Python function has no `return` statement: on a concrete failing upload its
return value is `None`, identical to the return value of the successful
upload, so no success/failure signal is returned. -/
theorem save_to_files_returns_no_signal :
    (save_to_files cfgDemoBucket [] .clientError).returned = none ∧
    (save_to_files cfgDemoBucket [] .clientError).returned =
      (save_to_files cfgDemoBucket [] .success).returned := by decide

/-- Claim C7 (amended): `save_to_files` returns no success/failure signal —
it returns Python `None` on every path; when a (non-empty) bucket is
configured and the upload fails it logs the error and performs exactly one
upload attempt with no retry, no cleanup and no local fallback write; when
no bucket is configured it writes the file locally with mode `w`
(overwriting any existing file) and reports success via an info log. -/
theorem save_to_files_behavior (cfg : Config) (recs : List NewsRecord) :
    (∀ s3, (save_to_files cfg recs s3).returned = none) ∧
    (∀ b, cfg.bucket_name = some b → b ≠ "" →
      save_to_files cfg recs .clientError = ⟨none, 1, none, none, true, false⟩) ∧
    (cfg.bucket_name = none → ∀ s3,
      save_to_files cfg recs s3 =
        ⟨none, 0, none, some (file_name cfg, "w", pyJsonDumps recs), false, true⟩) := by
  obtain ⟨cur, key, sd, ed, del, bn, ln⟩ := cfg
  refine ⟨?_, ?_, ?_⟩
  · intro s3
    cases bn with
    | none => rfl
    | some b =>
      by_cases hbe : b = ""
      · simp [save_to_files, hbe]
      · cases s3 <;> simp [save_to_files, hbe]
  · intro b hb hbe
    cases bn with
    | none => exact Option.noConfusion hb
    | some b2 =>
      injection hb with hbb
      subst hbb
      simp [save_to_files, hbe]
  · intro hb s3
    cases bn with
    | some b2 => exact Option.noConfusion hb
    | none => rfl

theorem save_to_files_behavior_witness :
    save_to_files cfgDemoBucket [] .clientError = ⟨none, 1, none, none, true, false⟩ ∧
    save_to_files cfgDemo [] .success =
      ⟨none, 0, none, some (file_name cfgDemo, "w", pyJsonDumps []), false, true⟩ :=
  ⟨(save_to_files_behavior cfgDemoBucket []).2.1 "cryptopanic-scraper" rfl (by decide),
   (save_to_files_behavior cfgDemo []).2.2 rfl .success⟩

/-! ## JSON round-trip (claim C8) -/

theorem hexVal_hexDigitChar : ∀ n : Nat, n < 16 → hexVal (hexDigitChar n) = some n := by decide

theorem parseStringBody_escList : ∀ (l rest : List Char),
    parseStringBody (l.flatMap escChar ++ '"' :: rest) = some (l, rest) := by
  intro l
  induction l with
  | nil => intro rest; rw [List.flatMap_nil, List.nil_append]; unfold parseStringBody; rfl
  | cons c l ih =>
    intro rest
    rw [List.flatMap_cons, List.append_assoc]
    by_cases h1 : c = '"'
    · subst h1
      rw [show escChar '"' = ['\\', '"'] from rfl]
      unfold parseStringBody
      simp [show unescapeChar '"' = some '"' from rfl, ih]
    · by_cases h2 : c = '\\'
      · subst h2
        rw [show escChar '\\' = ['\\', '\\'] from rfl]
        unfold parseStringBody
        simp [show unescapeChar '\\' = some '\\' from rfl, ih]
      · by_cases h3 : c = '\n'
        · subst h3
          rw [show escChar '\n' = ['\\', 'n'] from rfl]
          unfold parseStringBody
          simp [show unescapeChar 'n' = some '\n' from rfl, ih]
        · by_cases h4 : c = '\r'
          · subst h4
            rw [show escChar '\r' = ['\\', 'r'] from rfl]
            unfold parseStringBody
            simp [show unescapeChar 'r' = some '\r' from rfl, ih]
          · by_cases h5 : c = '\t'
            · subst h5
              rw [show escChar '\t' = ['\\', 't'] from rfl]
              unfold parseStringBody
              simp [show unescapeChar 't' = some '\t' from rfl, ih]
            · by_cases h6 : c = Char.ofNat 8
              · subst h6
                rw [show escChar (Char.ofNat 8) = ['\\', 'b'] from rfl]
                unfold parseStringBody
                simp [show unescapeChar 'b' = some (Char.ofNat 8) from rfl, ih]
              · by_cases h7 : c = Char.ofNat 12
                · subst h7
                  rw [show escChar (Char.ofNat 12) = ['\\', 'f'] from rfl]
                  unfold parseStringBody
                  simp [show unescapeChar 'f' = some (Char.ofNat 12) from rfl, ih]
                · by_cases h8 : c.toNat < 32
                  · have hesc : escChar c =
                        ['\\', 'u', '0', '0', hexDigitChar (c.toNat / 16),
                          hexDigitChar (c.toNat % 16)] := by
                      simp [escChar, h1, h2, h3, h4, h5, h6, h7, h8]
                    rw [hesc]
                    simp only [List.cons_append]
                    unfold parseStringBody
                    simp [hexVal_hexDigitChar (c.toNat / 16) (by omega),
                      hexVal_hexDigitChar (c.toNat % 16) (by omega),
                      show hexVal '0' = some 0 from rfl, ih]
                    rw [show c.toNat / 16 * 16 + c.toNat % 16 = c.toNat from by omega,
                      Char.ofNat_toNat]
                  · have hesc : escChar c = [c] := by
                      simp [escChar, h1, h2, h3, h4, h5, h6, h7, h8]
                    rw [hesc]
                    simp only [List.cons_append, List.nil_append]
                    unfold parseStringBody
                    rw [if_neg h1, if_neg h2, if_neg h8, ih]


theorem parseJsonString_enc (s : String) (l : List Char) :
    parseJsonString ('"' :: (s.data.flatMap escChar ++ ('"' :: l))) = some (s, l) := by
  show (match parseStringBody (s.data.flatMap escChar ++ ('"' :: l)) with
        | none => none
        | some (body, r) => some (String.mk body, r)) = some (s, l)
  rw [parseStringBody_escList]

theorem skipWs_cons_of_ws (c : Char) (l : List Char) (h : isWs c = true) :
    skipWs (c :: l) = skipWs l := by
  show (if isWs c = true then skipWs l else c :: l) = skipWs l
  simp [h]

theorem skipWs_cons_of_not_ws (c : Char) (l : List Char) (h : isWs c = false) :
    skipWs (c :: l) = c :: l := by
  show (if isWs c = true then skipWs l else c :: l) = c :: l
  simp [h]

theorem skipWs_ws_append : ∀ (pre l : List Char), (∀ c ∈ pre, isWs c = true) →
    skipWs (pre ++ l) = skipWs l := by
  intro pre
  induction pre with
  | nil => intro l _; rfl
  | cons c cs ih =>
    intro l h
    rw [List.cons_append, skipWs_cons_of_ws c _ (h c (by simp))]
    exact ih l (fun c2 hc2 => h c2 (by simp [hc2]))

theorem encStrChars_cons (s : String) (l : List Char) :
    encStrChars s ++ l = '"' :: (s.data.flatMap escChar ++ ('"' :: l)) := by
  simp [encStrChars]

theorem parseKey_date (l : List Char) :
    parseJsonString ('"' :: (escChar 'd' ++ (escChar 'a' ++ (escChar 't' ++
      (escChar 'e' ++ '"' :: l))))) = some ("date", l) :=
  parseJsonString_enc "date" l

theorem parseKey_text (l : List Char) :
    parseJsonString ('"' :: (escChar 't' ++ (escChar 'e' ++ (escChar 'x' ++
      (escChar 't' ++ '"' :: l))))) = some ("text", l) :=
  parseJsonString_enc "text" l

theorem parseObject_objChars (fm : Nat) (r : NewsRecord) (pre rest : List Char)
    (hpre : ∀ c ∈ pre, isWs c = true) :
    parseObject (fm + 2) (pre ++ (objChars r ++ rest)) = some (objPairs r, rest) := by
  unfold parseObject
  rw [skipWs_ws_append _ _ hpre]
  unfold objChars
  simp [parseMembers, parseJsonString_enc, parseKey_date, parseKey_text, encStrChars_cons,
    skipWs_cons_of_ws, skipWs_cons_of_not_ws, isWs, List.cons_append, List.append_assoc,
    objPairs]



theorem parseElems_sepObjs : ∀ (rs : List NewsRecord) (r : NewsRecord) (fe : Nat)
    (pre rest : List Char), (∀ c ∈ pre, isWs c = true) →
    parseElems (rs.length + (fe + 2)) (pre ++ (sepObjsChars r rs ++ '\n' :: ']' :: rest)) =
      some ((r :: rs).map objPairs, rest) := by
  intro rs
  induction rs with
  | nil =>
    intro r fe pre rest hpre
    simp only [List.length_nil, Nat.zero_add]
    rw [show sepObjsChars r [] = objChars r from rfl]
    unfold parseElems
    rw [parseObject_objChars fe r pre ('\n' :: ']' :: rest) hpre]
    simp [skipWs_cons_of_ws, skipWs_cons_of_not_ws, isWs]
  | cons r2 rs ih =>
    intro r fe pre rest hpre
    have hfuel : (r2 :: rs).length + (fe + 2) = (rs.length + (fe + 1)) + 2 := by
      simp [List.length_cons]
      omega
    rw [hfuel]
    rw [show sepObjsChars r (r2 :: rs) =
      objChars r ++ ',' :: '\n' :: ' ' :: ' ' :: ' ' :: ' ' :: sepObjsChars r2 rs from rfl]
    rw [List.append_assoc, List.cons_append]
    unfold parseElems
    rw [parseObject_objChars (rs.length + (fe + 1)) r pre _ hpre]
    have hIH := ih r2 fe ['\n', ' ', ' ', ' ', ' '] rest (by decide)
    simp only [List.cons_append, List.nil_append] at hIH
    have hfuel2 : rs.length + (fe + 1) + 1 = rs.length + (fe + 2) := by omega
    simp [skipWs_cons_of_not_ws, isWs, List.cons_append, hfuel2, hIH]


theorem parseElems_sepObjs0 (rs : List NewsRecord) (r : NewsRecord) (fe : Nat)
    (rest : List Char) :
    parseElems (rs.length + (fe + 2)) (sepObjsChars r rs ++ '\n' :: ']' :: rest) =
      some ((r :: rs).map objPairs, rest) := by
  have h := parseElems_sepObjs rs r fe [] rest (by intro c hc; cases hc)
  simpa using h

theorem sepObjs_length_ge : ∀ (rs : List NewsRecord) (r : NewsRecord),
    rs.length + 1 ≤ (sepObjsChars r rs).length := by
  intro rs
  induction rs with
  | nil =>
    intro r
    rw [show sepObjsChars r [] = objChars r from rfl]
    unfold objChars
    simp
  | cons r2 rs ih =>
    intro r
    rw [show sepObjsChars r (r2 :: rs) =
      objChars r ++ ',' :: '\n' :: ' ' :: ' ' :: ' ' :: ' ' :: sepObjsChars r2 rs from rfl]
    have h2 := ih r2
    simp [List.length_append, List.length_cons]
    omega

theorem parseDoc_step (r : NewsRecord) (rs : List NewsRecord) :
    parseDoc (pyJsonDumps (r :: rs)) =
      (match parseElems ((pyJsonDumpsChars (r :: rs)).length + 1)
          (sepObjsChars r rs ++ '\n' :: ']' :: []) with
       | none => none
       | some (objs, r3) => (match skipWs r3 with | [] => some objs | _ => none)) := by
  cases rs with
  | nil => rfl
  | cons r2 rs2 => rfl

theorem pyJson_roundtrip : ∀ rs : List NewsRecord,
    parseDoc (pyJsonDumps rs) = some (rs.map objPairs) := by
  intro rs
  cases rs with
  | nil => decide
  | cons r rs =>
    rw [parseDoc_step r rs]
    have hlen : rs.length + 1 ≤ (sepObjsChars r rs).length := sepObjs_length_ge rs r
    have hlen2 : (pyJsonDumpsChars (r :: rs)).length = (sepObjsChars r rs).length + 8 := by
      rw [show pyJsonDumpsChars (r :: rs) =
        '[' :: '\n' :: ' ' :: ' ' :: ' ' :: ' ' :: (sepObjsChars r rs ++ ['\n', ']'])
        from rfl]
      simp [List.length_append, List.length_cons]
    rw [show (pyJsonDumpsChars (r :: rs)).length + 1 =
      rs.length + (((pyJsonDumpsChars (r :: rs)).length - 1 - rs.length) + 2) from by omega]
    rw [parseElems_sepObjs0]
    rfl

/-- Claim C8: the serialized document is a JSON array of objects with
4-space indentation (witnessed by the exact text emitted for a concrete
record), every character other than `\"`, `\\` and the control range —
non-ASCII included — is emitted literally, and serialization round-trips:
re-parsing the document produced for any sequence of records yields exactly
one object per record, with `date` and `text` fields equal to the
original's. -/
theorem json_serialization_roundtrip :
    (∀ rs : List NewsRecord, parseDoc (pyJsonDumps rs) = some (rs.map objPairs)) ∧
    (∀ c : Char, ¬ c = '"' → ¬ c = '\\' → ¬ c.toNat < 32 → escChar c = [c]) ∧
    pyJsonDumps [⟨"2024-01-01T05:00:00+00:00", "héllo\n"⟩] =
      "[\n    \x7b\n        \"date\": \"2024-01-01T05:00:00+00:00\",\n        \"text\": \"héllo\\n\"\n    \x7d\n]" := by
  refine ⟨pyJson_roundtrip, ?_, by decide⟩
  intro c h1 h2 h3
  have hn : ¬ c = '\n' := fun h => h3 (by rw [h]; decide)
  have hr : ¬ c = '\r' := fun h => h3 (by rw [h]; decide)
  have ht : ¬ c = '\t' := fun h => h3 (by rw [h]; decide)
  have hb : ¬ c = Char.ofNat 8 := fun h => h3 (by rw [h]; decide)
  have hf : ¬ c = Char.ofNat 12 := fun h => h3 (by rw [h]; decide)
  simp [escChar, h1, h2, h3, hn, hr, ht, hb, hf]

theorem json_serialization_roundtrip_witness :
    parseDoc (pyJsonDumps [⟨"2024-01-01T05:00:00+00:00", "é\n"⟩]) =
      some ([(⟨"2024-01-01T05:00:00+00:00", "é\n"⟩ : NewsRecord)].map objPairs) ∧
    escChar 'é' = ['é'] :=
  ⟨json_serialization_roundtrip.1 [⟨"2024-01-01T05:00:00+00:00", "é\n"⟩],
   json_serialization_roundtrip.2.1 'é' (by decide) (by decide) (by decide)⟩

end Cryptopanic
